import Mathlib

/-!
Shallow embedding of the ring-seek-bar video player
(`src/src/VideoPlayer.tsx`).  JavaScript numbers are modelled as
rationals (`ℚ`); the DOM/browser collaborators (the `<video>` element and
the SVG geometry queries `getTotalLength` / `getPointAtLength`) are
abstracted as parameters, since they are external to the repository.
-/

namespace VideoPlayer

/-- Number of scan intervals in the nearest-point search
(`const samples = 480` in `handlePointerMove`). -/
def samples : ℕ := 480

/-- Squared Euclidean distance between two points, exactly the
`dx*dx + dy*dy` computed inside the sampling loop of
`handlePointerMove`. -/
def sqDist (p q : ℚ × ℚ) : ℚ :=
  (p.1 - q.1) * (p.1 - q.1) + (p.2 - q.2) * (p.2 - q.2)

/-- Arc-length of the `i`-th sample: `const l = (i / samples) * pathLen`. -/
def sampleLen (pathLen : ℚ) (i : ℕ) : ℚ :=
  ((i : ℚ) / (samples : ℚ)) * pathLen

/-- The list of arc-length values visited by the loop
`for (let i = 0; i <= samples; i++)` — indices `0 .. samples`
inclusive. -/
def sampleLens (pathLen : ℚ) : List ℚ :=
  (List.range (samples + 1)).map (sampleLen pathLen)

/-- Squared distance from the pointer `(x, y)` to the `i`-th sampled path
point, where `P` stands for the browser's `getPointAtLength`. -/
def sampleDist2 (P : ℚ → ℚ × ℚ) (pathLen x y : ℚ) (i : ℕ) : ℚ :=
  sqDist (P (sampleLen pathLen i)) (x, y)

/-- One iteration of the sampling loop in `handlePointerMove`.  The
accumulator is `(bestLen, bestDist2)`; `bestDist2 = none` models the
initial `Number.POSITIVE_INFINITY` (any finite distance beats it, exactly
as `d2 < Infinity` always holds in the source). -/
def scanStep (P : ℚ → ℚ × ℚ) (pathLen x y : ℚ)
    (acc : ℚ × Option ℚ) (i : ℕ) : ℚ × Option ℚ :=
  let l := sampleLen pathLen i
  let pt := P l
  let dx := pt.1 - x
  let dy := pt.2 - y
  let d2 := dx * dx + dy * dy
  match acc.2 with
  | none => (l, some d2)
  | some b => if d2 < b then (l, some d2) else acc

/-- The whole sampling loop of `handlePointerMove`: starting from
`bestLen = 0`, `bestDist2 = ∞`, fold the step over `i = 0 .. samples`. -/
def nearestScan (P : ℚ → ℚ × ℚ) (pathLen x y : ℚ) : ℚ × Option ℚ :=
  (List.range (samples + 1)).foldl (scanStep P pathLen x y) (0, none)

/-- Hover tolerance: `const HOVER_TOL = Math.max(barWidth, 24)`. -/
def hoverTol (barWidth : ℚ) : ℚ := max barWidth 24

/-- The pointer-move handler: run the nearest-point scan, then accept the
match when the cursor is near the track.  The source tests
`Math.sqrt(bestDist2) <= HOVER_TOL`; both sides are nonnegative, so this
is equivalent to `bestDist2 <= HOVER_TOL * HOVER_TOL`, the form used here
to stay inside `ℚ` (the equivalence with the square-root form is proved
in theorem `c3_tolerance_gate` below).  The returned value is the new
`hoverLen` state: `some bestLen` on a match, `none` otherwise. -/
def handlePointerMove (P : ℚ → ℚ × ℚ) (pathLen barWidth x y : ℚ) :
    Option ℚ :=
  let best := nearestScan P pathLen x y
  match best.2 with
  | none => none
  | some b =>
    if b ≤ hoverTol barWidth * hoverTol barWidth then some best.1 else none

/-- The minimal squared distance tracked by the scan (`bestDist2` after
the loop); the scan always performs at least one iteration, so the
`getD 0` default is never exercised. -/
def minDist2 (P : ℚ → ℚ × ℚ) (pathLen x y : ℚ) : ℚ :=
  ((nearestScan P pathLen x y).2).getD 0

/-- The pointer-down handler `seekFromHover`.  Returns `none` for the
no-op branch (`hoverLen == null || !videoRef.current || !duration`) and
`some t` when the handler assigns `videoRef.current.currentTime = t` and
starts playback.  `!duration` is truthy exactly when `duration` is `0`
(the component initialises `duration` to `0` and `onLoaded` coerces a
missing duration to `0`). -/
def seekFromHover (hoverLen : Option ℚ) (pathLen duration : ℚ) :
    Option ℚ :=
  match hoverLen with
  | none => none
  | some h =>
    if duration = 0 then none
    else
      let frac := h / pathLen
      some (max 0 (min (duration * frac) (duration - 1 / 100)))

/-- Derived progress ratio:
`const progress = duration > 0 ? current / duration : 0`. -/
def progress (duration current : ℚ) : ℚ :=
  if 0 < duration then current / duration else 0

/-- Numeric value of JavaScript's `x.toFixed(2)` (round to two decimal
places, half rounded up, per the ECMAScript specification of
`Number.prototype.toFixed`). -/
def toFixed2 (x : ℚ) : ℚ := ((⌊x * 100 + 1 / 2⌋ : ℤ) : ℚ) / 100

/-- The progress-stroke dash descriptor
``const redDash = `${(progress * pathLen).toFixed(2)} ${pathLen.toFixed(2)}` ``,
modelled as the pair of numeric values of the two formatted components. -/
def redDash (pr pathLen : ℚ) : ℚ × ℚ :=
  (toFixed2 (pr * pathLen), toFixed2 pathLen)

/-- A command of the SVG path description built by the `d` memo:
`M x y`, `L x y`, or `A rx ry xrot largeArc sweep x y`. -/
inductive PathCmd where
  | move (x y : ℚ)
  | line (x y : ℚ)
  | arc (rx ry xrot : ℚ) (largeArc sweep : Bool) (x y : ℚ)
deriving DecidableEq

/-- End point of a path command. -/
def PathCmd.endPt : PathCmd → ℚ × ℚ
  | .move x y => (x, y)
  | .line x y => (x, y)
  | .arc _ _ _ _ _ x y => (x, y)

/-- Stroke-containment padding:
`const pad = Math.ceil(barWidth / 2) + 2`. -/
def padOf (barWidth : ℚ) : ℚ := ((⌈barWidth / 2⌉ : ℤ) : ℚ) + 2

/-- Effective corner radius `const r = Math.min(radius, w / 2, h / 2)`
with `w = h = size - pad * 2`. -/
def rEff (size radius barWidth : ℚ) : ℚ :=
  min radius
    (min ((size - padOf barWidth * 2) / 2) ((size - padOf barWidth * 2) / 2))

/-- The rounded-square path of the `d` memo: starts at the top-midpoint
and proceeds clockwise — straight edge, quarter arc, four times over,
then a closing line back to the start. -/
def d (size radius barWidth : ℚ) : List PathCmd :=
  let pad := padOf barWidth
  let w := size - pad * 2
  let h := size - pad * 2
  let r := min radius (min (w / 2) (h / 2))
  let x0 := pad + w / 2
  let y0 := pad
  [ .move x0 y0,
    .line (pad + w - r) y0,
    .arc r r 0 false true (pad + w) (pad + r),
    .line (pad + w) (pad + h - r),
    .arc r r 0 false true (pad + w - r) (pad + h),
    .line (pad + r) (pad + h),
    .arc r r 0 false true pad (pad + h - r),
    .line pad (pad + r),
    .arc r r 0 false true (pad + r) pad,
    .line x0 y0 ]

/-- Modelled from the spec: the rendering collaborator's
`getPointAtLength` near the start of the realized default path
(`size = 360`, `barWidth = 24`, so `pad = 14` and the start point is the
top-midpoint `(180, 14)`); the path proceeds clockwise along the top
edge, i.e. rightward, so the point at arc-length `l` (small) is
`(180 + l, 14)`. -/
def topEdgeP (l : ℚ) : ℚ × ℚ := (180 + l, 14)

/-- A degenerate point-at-length oracle used only as a concrete witness
input: every arc-length maps to the origin. -/
def constOrigin (_ : ℚ) : ℚ × ℚ := (0, 0)

/-! ## Structural lemmas about the sampling scan -/

/-- Squared distances are nonnegative. -/
lemma sqDist_nonneg (p q : ℚ × ℚ) : 0 ≤ sqDist p q :=
  add_nonneg (mul_self_nonneg _) (mul_self_nonneg _)

/-- First loop iteration: any finite distance replaces the initial
infinity. -/
lemma scanStep_none (P : ℚ → ℚ × ℚ) (L x y bl : ℚ) (i : ℕ) :
    scanStep P L x y (bl, none) i =
      (sampleLen L i, some (sampleDist2 P L x y i)) := rfl

/-- Later loop iterations: replace the accumulator only on a strictly
smaller squared distance. -/
lemma scanStep_some (P : ℚ → ℚ × ℚ) (L x y bl b : ℚ) (i : ℕ) :
    scanStep P L x y (bl, some b) i =
      if sampleDist2 P L x y i < b then
        (sampleLen L i, some (sampleDist2 P L x y i))
      else (bl, some b) := rfl

/-- Invariant of the sampling loop over the prefix `0 .. n`: the
accumulator holds the sample of the least index attaining the minimal
squared distance over that prefix. -/
lemma scan_prefix_spec (P : ℚ → ℚ × ℚ) (L x y : ℚ) (n : ℕ) :
    ∃ i, i ≤ n ∧
      (List.range (n + 1)).foldl (scanStep P L x y) (0, none) =
        (sampleLen L i, some (sampleDist2 P L x y i)) ∧
      (∀ j, j ≤ n → sampleDist2 P L x y i ≤ sampleDist2 P L x y j) ∧
      (∀ j, j < i → sampleDist2 P L x y i < sampleDist2 P L x y j) := by
  induction n with
  | zero =>
    refine ⟨0, Nat.le_refl 0, ?_, ?_, ?_⟩
    · rw [show List.range (0 + 1) = [0] from rfl]
      simp only [List.foldl_cons, List.foldl_nil, scanStep_none]
    · intro j hj
      have hj0 : j = 0 := Nat.le_zero.mp hj
      subst hj0
      exact le_refl _
    · intro j hj
      exact absurd hj (Nat.not_lt_zero j)
  | succ n ih =>
    obtain ⟨i, hin, heq, hmin, hfirst⟩ := ih
    rw [List.range_succ, List.foldl_append, heq, List.foldl_cons,
      List.foldl_nil, scanStep_some]
    by_cases hc :
        sampleDist2 P L x y (n + 1) < sampleDist2 P L x y i
    · rw [if_pos hc]
      refine ⟨n + 1, le_refl _, rfl, ?_, ?_⟩
      · intro j hj
        by_cases hjn : j = n + 1
        · subst hjn; exact le_refl _
        · have hj' : j ≤ n := Nat.lt_succ_iff.mp (lt_of_le_of_ne hj hjn)
          exact le_of_lt (lt_of_lt_of_le hc (hmin j hj'))
      · intro j hj
        have hj' : j ≤ n := Nat.lt_succ_iff.mp hj
        exact lt_of_lt_of_le hc (hmin j hj')
    · rw [if_neg hc]
      refine ⟨i, Nat.le_succ_of_le hin, rfl, ?_, hfirst⟩
      intro j hj
      by_cases hjn : j = n + 1
      · subst hjn; exact le_of_not_lt hc
      · exact hmin j (Nat.lt_succ_iff.mp (lt_of_le_of_ne hj hjn))

/-- The full scan returns the first sample index achieving the minimal
squared distance over all `481` samples. -/
lemma nearestScan_spec (P : ℚ → ℚ × ℚ) (L x y : ℚ) :
    ∃ i, i ≤ samples ∧
      nearestScan P L x y =
        (sampleLen L i, some (sampleDist2 P L x y i)) ∧
      (∀ j, j ≤ samples → sampleDist2 P L x y i ≤ sampleDist2 P L x y j) ∧
      (∀ j, j < i → sampleDist2 P L x y i < sampleDist2 P L x y j) :=
  scan_prefix_spec P L x y samples

/-- Unfolding of the pointer-move handler once the scan result is
known. -/
lemma handlePointerMove_eq_of_scan (P : ℚ → ℚ × ℚ) (L bw x y bl b : ℚ)
    (h : nearestScan P L x y = (bl, some b)) :
    handlePointerMove P L bw x y =
      if b ≤ hoverTol bw * hoverTol bw then some bl else none := by
  unfold handlePointerMove
  rw [h]

/-- With the constant-origin oracle and the pointer at the origin, every
sample is at distance `0`, so the first sample (arc-length `0`) wins. -/
lemma nearestScan_constOrigin : nearestScan constOrigin 1 0 0 = (0, some 0) := by
  obtain ⟨i, hi, heq, hmin, hfirst⟩ := nearestScan_spec constOrigin 1 0 0
  have hD : ∀ j, sampleDist2 constOrigin 1 0 0 j = 0 := fun j => by
    simp [sampleDist2, sqDist, constOrigin]
  have hi0 : i = 0 := by
    by_contra hne
    have hlt := hfirst 0 (Nat.pos_of_ne_zero hne)
    rw [hD, hD] at hlt
    exact lt_irrefl 0 hlt
  subst hi0
  rw [heq, hD 0]
  have hl : sampleLen 1 0 = 0 := by simp [sampleLen]
  rw [hl]

/-- Concrete evaluation of the projector for the witness input. -/
lemma handlePointerMove_constOrigin :
    handlePointerMove constOrigin 1 24 0 0 = some 0 := by
  rw [handlePointerMove_eq_of_scan _ _ _ _ _ _ _ nearestScan_constOrigin]
  norm_num [hoverTol]

/-- With the top-edge oracle (pointer at the path start `(180, 14)` and
the placeholder length `1`), the squared distance of sample `j` is the
square of its arc-length. -/
lemma sampleDist2_topEdge (j : ℕ) :
    sampleDist2 topEdgeP 1 180 14 j = sampleLen 1 j * sampleLen 1 j := by
  simp only [sampleDist2, sqDist, topEdgeP]
  ring

/-- With the pointer exactly at the start point, the scan returns
arc-length `0` at distance `0` even though the path length is still the
unmeasured placeholder `1`. -/
lemma nearestScan_topEdge : nearestScan topEdgeP 1 180 14 = (0, some 0) := by
  obtain ⟨i, hi, heq, hmin, hfirst⟩ := nearestScan_spec topEdgeP 1 180 14
  have hD0 : sampleDist2 topEdgeP 1 180 14 0 = 0 := by
    rw [sampleDist2_topEdge]
    simp [sampleLen]
  have hle := hmin 0 (Nat.zero_le _)
  rw [hD0] at hle
  have hge : 0 ≤ sampleDist2 topEdgeP 1 180 14 i := by
    rw [sampleDist2_topEdge]
    exact mul_self_nonneg _
  have hDi : sampleDist2 topEdgeP 1 180 14 i = 0 := le_antisymm hle hge
  rw [sampleDist2_topEdge] at hDi
  have hli : sampleLen 1 i = 0 := mul_self_eq_zero.mp hDi
  have hiq : (i : ℚ) = 0 := by
    simp [sampleLen, samples, div_eq_zero_iff] at hli
    exact_mod_cast hli
  have hi0 : i = 0 := by exact_mod_cast hiq
  subst hi0
  rw [heq, hD0]
  have hl : sampleLen 1 0 = 0 := by simp [sampleLen]
  rw [hl]

/-- The pointer-move handler accepts the start point while the length is
still the placeholder. -/
lemma handlePointerMove_topEdge :
    handlePointerMove topEdgeP 1 24 180 14 = some 0 := by
  rw [handlePointerMove_eq_of_scan _ _ _ _ _ _ _ nearestScan_topEdge]
  norm_num [hoverTol]

/-! ## Claim theorems -/

/-- C1: the code does NOT suppress hover and seek while `pathLen` is the
unmeasured placeholder `1`.  With the pointer exactly at the path start
point `(180, 14)` (default geometry), `handlePointerMove` sets the
non-null hover location `0`, and with `duration = 10` the pointer-down
handler assigns `currentTime = 0` and starts playback — contradicting
the spec's edge-case policy that the projector must refuse to match and
seeks be suppressed until the real length has been measured. -/
theorem c1_unmeasured_not_suppressed :
    handlePointerMove topEdgeP 1 24 180 14 = some 0 ∧
    seekFromHover (some 0) 1 10 = some 0 := by
  refine ⟨handlePointerMove_topEdge, ?_⟩
  norm_num [seekFromHover]

/-- C2 (amended): for a non-null hover location `h`, measured length
`L > 0` and duration `dur > 0`, the committed time is
`max 0 (min (dur * (h / L)) (dur - 1/100))`, i.e.
`clamp ((h/L) * dur, 0, dur - 0.01)`; and for `h = 0.99 * L` with
`dur ≥ 0.01` the committed time equals
`min (dur * 0.99) (dur - 0.01)` (for `0 < dur < 0.01` that `min` is
negative while the code commits `0`, so the extra bound is needed). -/
theorem c2_seek_commit (h L dur : ℚ) (hL : 0 < L) (hdur : 0 < dur) :
    seekFromHover (some h) L dur =
      some (max 0 (min (dur * (h / L)) (dur - 1 / 100))) ∧
    (h = (99 / 100) * L → 1 / 100 ≤ dur →
      seekFromHover (some h) L dur =
        some (min (dur * (99 / 100)) (dur - 1 / 100))) := by
  have he : seekFromHover (some h) L dur =
      some (max 0 (min (dur * (h / L)) (dur - 1 / 100))) := by
    simp [seekFromHover, hdur.ne']
  refine ⟨he, ?_⟩
  intro h99 hd
  subst h99
  rw [he]
  have hfrac : (99 / 100) * L / L = (99 / 100 : ℚ) := by
    rw [mul_div_assoc, div_self hL.ne', mul_one]
  rw [hfrac]
  have hmin0 : (0 : ℚ) ≤ min (dur * (99 / 100)) (dur - 1 / 100) :=
    le_min (by positivity) (by linarith)
  rw [max_eq_right hmin0]

/-- Witness for C2 at `h = 0.99`, `L = 1`, `dur = 1`. -/
theorem c2_seek_commit_witness :
    (0 : ℚ) < 1 ∧ (0 : ℚ) < 1 ∧
    (seekFromHover (some (99 / 100)) 1 1 =
        some (max 0 (min (1 * ((99 / 100) / 1)) (1 - 1 / 100))) ∧
      ((99 / 100 : ℚ) = (99 / 100) * 1 → (1 / 100 : ℚ) ≤ 1 →
        seekFromHover (some (99 / 100)) 1 1 =
          some (min (1 * (99 / 100)) (1 - 1 / 100)))) :=
  ⟨by norm_num, by norm_num,
    c2_seek_commit (99 / 100) 1 1 (by norm_num) (by norm_num)⟩

/-- Counterexample for C2 as stated: at `h = 0.99 * L` with `L = 1` and
`dur = 1/200 < 0.01` the code commits time `0`, while
`min (dur * 0.99) (dur - 0.01) = -1/200` is negative. -/
theorem c2_counterexample :
    seekFromHover (some ((99 / 100) * 1)) 1 (1 / 200) = some 0 ∧
    min ((1 / 200 : ℚ) * (99 / 100)) (1 / 200 - 1 / 100) = -(1 / 200) ∧
    ¬ ((0 : ℚ) = -(1 / 200)) := by
  refine ⟨?_, ?_, by norm_num⟩
  · norm_num [seekFromHover, min_def, max_def]
  · norm_num [min_def]

/-- C3: the projection returns a non-null arc-length exactly when the
Euclidean distance from the pointer to the nearest sampled path point
(the square root of the minimal squared sample distance) is at most
`max barWidth 24`; and that tolerance is never below `24`. -/
theorem c3_tolerance_gate (P : ℚ → ℚ × ℚ) (L bw x y : ℚ) :
    ((∃ l, handlePointerMove P L bw x y = some l) ↔
      Real.sqrt ((minDist2 P L x y : ℚ) : ℝ) ≤ ((max bw 24 : ℚ) : ℝ)) ∧
    (24 : ℚ) ≤ max bw 24 := by
  obtain ⟨i, hi, heq, hmin, hfirst⟩ := nearestScan_spec P L x y
  have hd2 : minDist2 P L x y = sampleDist2 P L x y i := by
    simp only [minDist2, heq, Option.getD_some]
  have h0 : (0 : ℚ) ≤ minDist2 P L x y := hd2 ▸ sqDist_nonneg _ _
  have htol : (0 : ℚ) ≤ max bw 24 :=
    le_trans (by norm_num) (le_max_right bw 24)
  refine ⟨?_, le_max_right bw 24⟩
  rw [Real.sqrt_le_left (by exact_mod_cast htol)]
  have hcast : ((minDist2 P L x y : ℚ) : ℝ) ≤ ((max bw 24 : ℚ) : ℝ) ^ 2 ↔
      minDist2 P L x y ≤ max bw 24 * max bw 24 := by
    rw [show ((max bw 24 : ℚ) : ℝ) ^ 2 = ((max bw 24 * max bw 24 : ℚ) : ℝ) by
      push_cast; ring]
    exact Rat.cast_le
  rw [hcast]
  rw [handlePointerMove_eq_of_scan _ _ _ _ _ _ _ heq, hd2]
  constructor
  · rintro ⟨l, hl⟩
    by_cases hc : sampleDist2 P L x y i ≤ hoverTol bw * hoverTol bw
    · simpa [hoverTol] using hc
    · rw [if_neg hc] at hl
      exact absurd hl (by simp)
  · intro hc
    rw [if_pos (by simpa [hoverTol] using hc)]
    exact ⟨sampleLen L i, rfl⟩

/-- C4 (amended): for `radius ≥ 0` and `barWidth ≥ 0` the built path is
closed (it starts and ends at the top-midpoint
`(pad + w/2, pad)` with `pad = ⌈barWidth/2⌉ + 2` and `w = size - 2*pad`)
and every arc uses the effective radius `min radius (min (w/2) (h/2))`;
the containment of every coordinate in `[0, size] × [0, size]`
additionally requires `2 * pad ≤ size` (for smaller `size` the drawable
width is negative and coordinates escape the square, see
`c4_counterexample`). -/
theorem c4_path_shape (size radius bw : ℚ) (hrad : 0 ≤ radius)
    (hbw : 0 ≤ bw) :
    ((d size radius bw).head?.map PathCmd.endPt =
        some (padOf bw + (size - padOf bw * 2) / 2, padOf bw) ∧
      ((d size radius bw).getLast?).map PathCmd.endPt =
        some (padOf bw + (size - padOf bw * 2) / 2, padOf bw)) ∧
    (∀ rx ry rot la sw px py,
        PathCmd.arc rx ry rot la sw px py ∈ d size radius bw →
        rx = rEff size radius bw ∧ ry = rEff size radius bw) ∧
    (2 * padOf bw ≤ size →
      ∀ p ∈ (d size radius bw).map PathCmd.endPt,
        0 ≤ p.1 ∧ p.1 ≤ size ∧ 0 ≤ p.2 ∧ p.2 ≤ size) := by
  have hpad : (0 : ℚ) ≤ padOf bw := by
    unfold padOf
    have hc : (0 : ℤ) ≤ ⌈bw / 2⌉ := Int.ceil_nonneg (by positivity)
    have hc2 : (0 : ℚ) ≤ ((⌈bw / 2⌉ : ℤ) : ℚ) := by exact_mod_cast hc
    linarith
  refine ⟨⟨?_, ?_⟩, ?_, ?_⟩
  · simp only [d, List.head?_cons]
    rfl
  · simp only [d, List.getLast?_cons_cons, List.getLast?_singleton]
    rfl
  · intro rx ry rot la sw px py hmem
    simp only [d, List.mem_cons, List.not_mem_nil, or_false] at hmem
    rcases hmem with h | h | h | h | h | h | h | h | h | h <;>
      first
        | exact PathCmd.noConfusion h
        | (rw [PathCmd.arc.injEq] at h; exact ⟨h.1, h.2.1⟩)
  · intro hclip p hp
    have hw : (0 : ℚ) ≤ size - padOf bw * 2 := by linarith
    have hr0 : (0 : ℚ) ≤ min radius
        (min ((size - padOf bw * 2) / 2) ((size - padOf bw * 2) / 2)) :=
      le_min hrad (le_min (by linarith) (by linarith))
    have hrw : min radius
        (min ((size - padOf bw * 2) / 2) ((size - padOf bw * 2) / 2)) ≤
        (size - padOf bw * 2) / 2 :=
      le_trans (min_le_right _ _) (min_le_left _ _)
    set q := padOf bw with hq
    set r := min radius
        (min ((size - q * 2) / 2) ((size - q * 2) / 2)) with hrdef
    simp only [d, List.map_cons, List.map_nil, List.mem_cons,
      List.not_mem_nil, or_false, PathCmd.endPt] at hp
    rcases hp with h | h | h | h | h | h | h | h | h | h <;>
      (subst h
       refine ⟨by dsimp only; linarith, by dsimp only; linarith,
         by dsimp only; linarith, by dsimp only; linarith⟩)

/-- Witness for C4 at the default parameters
`size = 360`, `radius = 50`, `barWidth = 24`. -/
theorem c4_path_shape_witness :
    (0 : ℚ) ≤ 50 ∧ (0 : ℚ) ≤ 24 ∧
    (((d 360 50 24).head?.map PathCmd.endPt =
        some (padOf 24 + (360 - padOf 24 * 2) / 2, padOf 24) ∧
      ((d 360 50 24).getLast?).map PathCmd.endPt =
        some (padOf 24 + (360 - padOf 24 * 2) / 2, padOf 24)) ∧
    (∀ rx ry rot la sw px py,
        PathCmd.arc rx ry rot la sw px py ∈ d 360 50 24 →
        rx = rEff 360 50 24 ∧ ry = rEff 360 50 24) ∧
    (2 * padOf 24 ≤ 360 →
      ∀ p ∈ (d 360 50 24).map PathCmd.endPt,
        0 ≤ p.1 ∧ p.1 ≤ 360 ∧ 0 ≤ p.2 ∧ p.2 ≤ 360)) :=
  ⟨by norm_num, by norm_num, c4_path_shape 360 50 24 (by norm_num) (by norm_num)⟩

/-- Counterexample for C4 as stated: with `size = 0`, `radius = 0`,
`barWidth = 0` (all allowed by the claim's hypotheses) the path has the
endpoint `(-2, 0)`, whose first coordinate lies outside
`[0, size] = [0, 0]`. -/
theorem c4_counterexample :
    ((-2 : ℚ), (0 : ℚ)) ∈ (d 0 0 0).map PathCmd.endPt ∧ (-2 : ℚ) < 0 := by
  refine ⟨?_, by norm_num⟩
  have hpad : padOf 0 = 2 := by norm_num [padOf]
  simp only [d, hpad, List.map_cons, List.map_nil, List.mem_cons,
    PathCmd.endPt]
  norm_num [min_def]

/-- C5 (amended): the nearest-point search evaluates exactly `481`
evenly spaced arc-length values `(i/480) * pathLen` for
`i = 0, …, 480` (the loop `for i = 0; i <= 480` is inclusive at both
ends, so there are `481` samples, not `480`), and the tracked best
distance is the minimum over those samples of the squared Euclidean
distance from the pointer to the sampled point. -/
theorem c5_sampling (P : ℚ → ℚ × ℚ) (L x y : ℚ) :
    (sampleLens L).length = 481 ∧
    (∀ i (h : i < (sampleLens L).length),
      (sampleLens L).get ⟨i, h⟩ = ((i : ℚ) / 480) * L) ∧
    ∃ i : ℕ, i ≤ (480 : ℕ) ∧
      (nearestScan P L x y).2 =
        some (sqDist (P (((i : ℚ) / 480) * L)) (x, y)) ∧
      ∀ j : ℕ, j ≤ (480 : ℕ) →
        sqDist (P (((i : ℚ) / 480) * L)) (x, y) ≤
          sqDist (P (((j : ℚ) / 480) * L)) (x, y) := by
  have hlen : ∀ k : ℕ, sampleLen L k = ((k : ℚ) / 480) * L := by
    intro k
    simp [sampleLen, samples]
  refine ⟨by simp [sampleLens, samples], ?_, ?_⟩
  · intro i h
    simp only [sampleLens, List.get_eq_getElem, List.getElem_map,
      List.getElem_range]
    exact hlen i
  · obtain ⟨i, hi, heq, hmin, -⟩ := nearestScan_spec P L x y
    refine ⟨i, hi, ?_, ?_⟩
    · rw [heq]
      simp only [sampleDist2, hlen]
    · intro j hj
      have := hmin j hj
      simpa only [sampleDist2, hlen] using this

/-- Counterexample for C5 as stated: the list of arc-length values
visited by the scan (here for `pathLen = 1`) has `481` entries, not
`480`. -/
theorem c5_counterexample :
    (sampleLens 1).length = 481 ∧ (sampleLens 1).length ≠ 480 := by
  constructor <;> simp [sampleLens, samples]

/-- C6: the derived progress ratio is `current / duration` for positive
duration and `0` for zero duration, and — under the media-element
invariant `0 ≤ currentTime ≤ duration` — always lies in `[0, 1]`. -/
theorem c6_progress (dur cur : ℚ) (h0 : 0 ≤ cur) (h1 : cur ≤ dur) :
    (0 < dur → progress dur cur = cur / dur) ∧
    (dur = 0 → progress dur cur = 0) ∧
    0 ≤ progress dur cur ∧ progress dur cur ≤ 1 := by
  refine ⟨fun h => by simp [progress, h], fun h => by simp [progress, h],
    ?_, ?_⟩
  · unfold progress
    split
    · positivity
    · exact le_refl 0
  · unfold progress
    split
    · exact (div_le_one (by assumption)).mpr h1
    · exact zero_le_one

/-- Witness for C6 at `duration = 100`, `currentTime = 25`. -/
theorem c6_progress_witness :
    (0 : ℚ) ≤ 25 ∧ (25 : ℚ) ≤ 100 ∧
    (((0 : ℚ) < 100 → progress 100 25 = 25 / 100) ∧
      ((100 : ℚ) = 0 → progress 100 25 = 0) ∧
      0 ≤ progress 100 25 ∧ progress 100 25 ≤ 1) :=
  ⟨by norm_num, by norm_num, c6_progress 100 25 (by norm_num) (by norm_num)⟩

/-- C7: the nearest-point search is a pure function of its inputs (two
runs on equal inputs give syntactically the same result), and when
several samples attain the minimal distance the scan returns the
arc-length of the smallest-index minimizing sample (the accumulator is
only replaced on a strictly smaller distance). -/
theorem c7_deterministic_first_min (P : ℚ → ℚ × ℚ) (L bw x y : ℚ) :
    handlePointerMove P L bw x y = handlePointerMove P L bw x y ∧
    ∃ i, i ≤ 480 ∧
      nearestScan P L x y = (sampleLen L i, some (sampleDist2 P L x y i)) ∧
      (∀ j, j ≤ 480 →
        sampleDist2 P L x y i ≤ sampleDist2 P L x y j) ∧
      (∀ j, j < i → sampleDist2 P L x y i < sampleDist2 P L x y j) :=
  ⟨rfl, nearestScan_spec P L x y⟩

/-- Rounding to two decimals is the identity on integer multiples of
`1/100`. -/
lemma toFixed2_hundredths (m : ℤ) : toFixed2 ((m : ℚ) / 100) = (m : ℚ) / 100 := by
  unfold toFixed2
  rw [div_mul_cancel₀ _ (by norm_num : (100 : ℚ) ≠ 0), add_comm,
    Int.floor_add_int]
  norm_num

/-- C8 (amended): the progress stroke descriptor is the pair
`(progress * totalLength, totalLength)` with each component rounded to
two decimal places by `toFixed(2)`; it equals the exact pair whenever
both components are integer multiples of `1/100`.  With
`duration = 100` and `currentTime = 25` the progress is `1/4` and the
dash is the rounded pair. -/
theorem c8_dash_descriptor :
    (∀ pr L : ℚ, (∃ m : ℤ, pr * L = (m : ℚ) / 100) →
      (∃ n : ℤ, L = (n : ℚ) / 100) → redDash pr L = (pr * L, L)) ∧
    progress 100 25 = 1 / 4 ∧
    (∀ L : ℚ, redDash (progress 100 25) L =
      (toFixed2 (1 / 4 * L), toFixed2 L)) := by
  have hprog : progress 100 25 = 1 / 4 := by norm_num [progress]
  refine ⟨?_, hprog, ?_⟩
  · rintro pr L ⟨m, hm⟩ ⟨n, hn⟩
    unfold redDash
    rw [hm, hn, toFixed2_hundredths, toFixed2_hundredths]
  · intro L
    rw [hprog]
    rfl

/-- Witness for C8 at `pr = 1/4`, `L = 4` (both `pr * L = 1` and `L`
are integer multiples of `1/100`). -/
theorem c8_dash_descriptor_witness :
    (∃ m : ℤ, (1 / 4 : ℚ) * 4 = (m : ℚ) / 100) ∧
    (∃ n : ℤ, (4 : ℚ) = (n : ℚ) / 100) ∧
    redDash (1 / 4) 4 = ((1 / 4 : ℚ) * 4, 4) :=
  ⟨⟨100, by norm_num⟩, ⟨400, by norm_num⟩,
    c8_dash_descriptor.1 (1 / 4) 4 ⟨100, by norm_num⟩ ⟨400, by norm_num⟩⟩

/-- Counterexample for C8 as stated: with `totalLength = 1/3` the
second dash component is `toFixed2 (1/3) = 33/100 ≠ 1/3`, so the
descriptor is not the exact pair `(progress * totalLength, totalLength)`. -/
theorem c8_counterexample :
    redDash 0 (1 / 3) ≠ ((0 : ℚ) * (1 / 3), (1 / 3 : ℚ)) := by
  intro hEq
  have h2 : toFixed2 (1 / 3) = (1 / 3 : ℚ) := congrArg Prod.snd hEq
  rw [show toFixed2 (1 / 3 : ℚ) = 33 / 100 by norm_num [toFixed2]] at h2
  norm_num at h2

/-- C9: a non-null hover location produced by the pointer-move handler
is the arc-length `(i/480) * pathLen` of one of the `481` samples, and
(for the nonnegative path lengths delivered by `getTotalLength`, the
placeholder `1` included) therefore lies in `[0, pathLen]`. -/
theorem c9_hover_range (P : ℚ → ℚ × ℚ) (L bw x y l : ℚ) (hL : 0 ≤ L)
    (h : handlePointerMove P L bw x y = some l) :
    (∃ i : ℕ, i ≤ (480 : ℕ) ∧ l = ((i : ℚ) / 480) * L) ∧
    0 ≤ l ∧ l ≤ L := by
  obtain ⟨i, hi, heq, -, -⟩ := nearestScan_spec P L x y
  rw [handlePointerMove_eq_of_scan _ _ _ _ _ _ _ heq] at h
  have hl : l = sampleLen L i := by
    by_cases hc : sampleDist2 P L x y i ≤ hoverTol bw * hoverTol bw
    · rw [if_pos hc] at h
      exact (Option.some.injEq _ _ ▸ h).symm
    · rw [if_neg hc] at h
      exact absurd h (by simp)
  have hfrac0 : (0 : ℚ) ≤ (i : ℚ) / 480 := by positivity
  have hfrac1 : (i : ℚ) / 480 ≤ 1 := by
    rw [div_le_one (by norm_num : (0 : ℚ) < 480)]
    exact_mod_cast hi
  have hlen : sampleLen L i = ((i : ℚ) / 480) * L := by
    simp [sampleLen, samples]
  refine ⟨⟨i, hi, hl.trans hlen⟩, ?_, ?_⟩
  · rw [hl, hlen]
    positivity
  · rw [hl, hlen]
    calc ((i : ℚ) / 480) * L ≤ 1 * L :=
          mul_le_mul_of_nonneg_right hfrac1 hL
      _ = L := one_mul L

/-- Witness for C9: constant-origin oracle, placeholder length `1`,
pointer at the origin; the handler returns hover length `0`. -/
theorem c9_hover_range_witness :
    (0 : ℚ) ≤ 1 ∧
    ((∃ i : ℕ, i ≤ (480 : ℕ) ∧ (0 : ℚ) = ((i : ℚ) / 480) * 1) ∧
      0 ≤ (0 : ℚ) ∧ (0 : ℚ) ≤ 1) :=
  ⟨by norm_num,
    c9_hover_range constOrigin 1 24 0 0 0 (by norm_num)
      handlePointerMove_constOrigin⟩

/-- C10: a committed seek assigns exactly
`max 0 (min (duration * (hoverLen / pathLen)) (duration - 1/100))`,
which is never negative; and when `0 < duration < 1/100` the upper
clamp bound is negative, so the assigned time is exactly `0`. -/
theorem c10_seek_nonneg (h L dur : ℚ) (_hL : 0 < L) (hdur : 0 < dur) :
    seekFromHover (some h) L dur =
      some (max 0 (min (dur * (h / L)) (dur - 1 / 100))) ∧
    (∀ t, seekFromHover (some h) L dur = some t → 0 ≤ t) ∧
    (dur < 1 / 100 → seekFromHover (some h) L dur = some 0) := by
  have he : seekFromHover (some h) L dur =
      some (max 0 (min (dur * (h / L)) (dur - 1 / 100))) := by
    simp [seekFromHover, hdur.ne']
  refine ⟨he, ?_, ?_⟩
  · intro t ht
    rw [he] at ht
    have := (Option.some.injEq _ _ ▸ ht)
    rw [← this]
    exact le_max_left 0 _
  · intro hdsmall
    rw [he]
    have hminneg : min (dur * (h / L)) (dur - 1 / 100) ≤ 0 :=
      le_trans (min_le_right _ _) (by linarith)
    rw [max_eq_left hminneg]

/-- Witness for C10 at `h = 1`, `L = 1`, `dur = 1/200 < 1/100`. -/
theorem c10_seek_nonneg_witness :
    (0 : ℚ) < 1 ∧ (0 : ℚ) < 1 / 200 ∧
    (seekFromHover (some 1) 1 (1 / 200) =
        some (max 0 (min ((1 / 200) * (1 / 1)) (1 / 200 - 1 / 100))) ∧
      (∀ t, seekFromHover (some 1) 1 (1 / 200) = some t → 0 ≤ t) ∧
      ((1 / 200 : ℚ) < 1 / 100 →
        seekFromHover (some 1) 1 (1 / 200) = some 0)) :=
  ⟨by norm_num, by norm_num,
    c10_seek_nonneg 1 1 (1 / 200) (by norm_num) (by norm_num)⟩

end VideoPlayer
